import Mathlib

/-
  Verification of the mdflib-rs repository against its natural-language
  specification.

  The development shallowly embeds the Rust wrapper layer of the repository:
  pure Rust functions become Lean functions on the same data, the native
  engine reached over FFI is represented by explicit oracle arguments (a
  pointer is a Nat, with 0 standing for the C null pointer), and fallible
  Rust code returning Result/Option becomes Except/Option.  Rust strings
  are lists of characters on the Rust side and lists of bytes (Nat < 256)
  on the C side; lossy UTF-8 decoding is implemented for real.

  Definitions are translated from the source files under mdflib/src,
  mdflib-sys/src and mf4-candump/src.  Behaviour of the native engine that
  the repository only declares (the C export shim and the measurement
  engine) is modelled from the specification and marked as such.
-/

/-! ## Error taxonomy (mdflib/src/error.rs) -/

/-- Embedding of the MdfError enum of mdflib/src/error.rs.  Payload types
that carry foreign data (io::Error, Utf8Error, NulError, IntoStringError)
are represented without their payload since the wrapper code never
inspects it. -/
inductive MdfError where
  | FileOpen (path : String)
  | HeaderRead
  | MeasurementInfo
  | DataRead
  | MeasurementInit
  | MeasurementFinalize
  | InvalidFormat
  | NullPointer
  | IndexOutOfBounds (index : Nat)
  | InvalidChannelType (tag : Nat)
  | InvalidDataType (tag : Nat)
  | BufferTooSmall (needed : Nat) (actual : Nat)
  | Utf8Error
  | StringConversion
  | Io
  | CStringConversion
  | CallbackError (msg : String)
deriving DecidableEq, Repr

/-! ## CAN filter argument parsing (mf4-candump/src/main.rs) -/

/-- Embedding of socketcan CanFilter as the pair of u32 values the parser
produces; values are Nats bounded by the u32 overflow check in the
parser. -/
structure CanFilter where
  id : Nat
  mask : Nat
deriving DecidableEq, Repr

/-- Value of an ASCII digit character in any radix up to 36, mirroring the
digit handling of the Rust standard library from_str_radix. -/
def digitValue (c : Char) : Option Nat :=
  if ('0' ≤ c ∧ c ≤ '9') then some (c.toNat - 48)
  else if ('a' ≤ c ∧ c ≤ 'z') then some (c.toNat - 87)
  else if ('A' ≤ c ∧ c ≤ 'Z') then some (c.toNat - 55)
  else none

/-- Embedding of u32::from_str_radix of the Rust standard library: an
optional leading plus sign, at least one digit, every digit below the
radix, and the resulting value within the u32 range; any violation is an
error (none). -/
def from_str_radix (radix : Nat) (s : List Char) : Option Nat :=
  let s := match s with
    | '+' :: rest => rest
    | other => other
  match s with
  | [] => none
  | _ =>
    let v := s.foldl (fun acc c =>
      match acc, digitValue c with
      | some a, some d => if d < radix then some (a * radix + d) else none
      | _, _ => none) (some 0)
    match v with
    | some value => if value ≤ 4294967295 then some value else none
    | none => none

/-- Embedding of str::trim_start_matches with pattern 0x: every leading
occurrence of the two-character prefix is removed. -/
def trim_start_matches_0x : List Char → List Char
  | '0' :: 'x' :: rest => trim_start_matches_0x rest
  | other => other

/-- Embedding of str::split with separator comma: returns the list of
(possibly empty) fields between commas. -/
def splitComma : List Char → List (List Char)
  | [] => [[]]
  | c :: rest =>
    if c = ',' then [] :: splitComma rest
    else match splitComma rest with
      | [] => [[c]]
      | p :: ps => (c :: p) :: ps

/-- Embedding of parse_can_filter of mf4-candump/src/main.rs: split the
input on commas, require exactly two fields, and parse each field by first
attempting hexadecimal (after stripping any leading 0x) and falling back
to decimal only when the hexadecimal parse fails.  Error messages are
abridged to their fixed leading text. -/
def parse_can_filter (filter_str : String) : Except String CanFilter :=
  let parts := splitComma filter_str.toList
  match parts with
  | [p0, p1] =>
    let idv := match from_str_radix 16 (trim_start_matches_0x p0) with
      | some v => some v
      | none => from_str_radix 10 p0
    let maskv := match from_str_radix 16 (trim_start_matches_0x p1) with
      | some v => some v
      | none => from_str_radix 10 p1
    match idv, maskv with
    | some i, some m => .ok ⟨i, m⟩
    | none, _ => .error "Invalid CAN ID"
    | _, none => .error "Invalid CAN mask"
  | _ => .error "Invalid filter format. Expected format: id,mask"

/-- C1: evaluation of parse_can_filter at the three inputs of the claim.
The hexadecimal input 0x123,0x7FF yields id 291 and mask 2047 and the
malformed input bad is rejected, as the claim states; but the decimal
input 291,2047 yields id 657 (that is 0x291) and mask 8263 (that is
0x2047), not 291 and 2047: the hexadecimal parse is attempted first and
succeeds on every decimal numeral, so the decimal fallback in the source
is unreachable for exactly the inputs it is meant to serve. -/
theorem parse_can_filter_eval :
    parse_can_filter "0x123,0x7FF" = .ok ⟨291, 2047⟩ ∧
    parse_can_filter "291,2047" = .ok ⟨657, 8263⟩ ∧
    parse_can_filter "bad" = .error "Invalid filter format. Expected format: id,mask" := by
  refine ⟨rfl, rfl, rfl⟩

/-! ## Byte strings, lossy UTF-8 decoding and the string-getter protocol
    (mdflib/src/etag.rs, header.rs, file.rs) -/

/-- Decoding step of the WHATWG UTF-8 decoder that Rust lossy decoding
(String::from_utf8_lossy, CStr::to_string_lossy) implements: consume one
scalar value from the front of the byte list, emitting U+FFFD (65533) and
resynchronising on malformed input.  Returns the emitted scalar value and
the remaining bytes. -/
def utf8DecodeOne : List Nat → Nat × List Nat
  | [] => (65533, [])
  | b :: rest =>
    if b < 128 then (b, rest)
    else if 194 ≤ b ∧ b ≤ 223 then
      match rest with
      | [] => (65533, [])
      | c1 :: rest1 =>
        if 128 ≤ c1 ∧ c1 ≤ 191 then ((b - 192) * 64 + (c1 - 128), rest1)
        else (65533, c1 :: rest1)
    else if 224 ≤ b ∧ b ≤ 239 then
      let lo1 := if b = 224 then 160 else 128
      let hi1 := if b = 237 then 159 else 191
      match rest with
      | [] => (65533, [])
      | c1 :: rest1 =>
        if lo1 ≤ c1 ∧ c1 ≤ hi1 then
          match rest1 with
          | [] => (65533, [])
          | c2 :: rest2 =>
            if 128 ≤ c2 ∧ c2 ≤ 191 then
              ((b - 224) * 4096 + (c1 - 128) * 64 + (c2 - 128), rest2)
            else (65533, c2 :: rest2)
        else (65533, c1 :: rest1)
    else if 240 ≤ b ∧ b ≤ 244 then
      let lo1 := if b = 240 then 144 else 128
      let hi1 := if b = 244 then 143 else 191
      match rest with
      | [] => (65533, [])
      | c1 :: rest1 =>
        if lo1 ≤ c1 ∧ c1 ≤ hi1 then
          match rest1 with
          | [] => (65533, [])
          | c2 :: rest2 =>
            if 128 ≤ c2 ∧ c2 ≤ 191 then
              match rest2 with
              | [] => (65533, [])
              | c3 :: rest3 =>
                if 128 ≤ c3 ∧ c3 ≤ 191 then
                  ((b - 240) * 262144 + (c1 - 128) * 4096 + (c2 - 128) * 64 + (c3 - 128), rest3)
                else (65533, c3 :: rest3)
            else (65533, c2 :: rest2)
        else (65533, c1 :: rest1)
    else (65533, rest)

/-- Fuelled iteration of the decoding step; the fuel is instantiated to
the length of the input, which suffices because a step always consumes at
least one byte. -/
def utf8LossyAux : Nat → List Nat → List Nat
  | _, [] => []
  | 0, _ :: _ => []
  | fuel + 1, b :: rest =>
    let r := utf8DecodeOne (b :: rest)
    r.1 :: utf8LossyAux fuel r.2

/-- Embedding of lossy UTF-8 decoding of a byte string into the list of
unicode scalar values (to_string_lossy in the Rust source).  The decoder
is total: invalid bytes become U+FFFD, never an error. -/
def toStringLossy (l : List Nat) : List Nat := utf8LossyAux l.length l

/-- Embedding of CStr::from_ptr on a filled buffer: the bytes of the
buffer strictly before the first NUL byte. -/
def cstrBytes (buf : List Nat) : List Nat := buf.takeWhile (fun b => b != 0)

/-- Modelled from the spec: the C export shim string getters, whose source
is compiled at build time and is not part of src/ (the spec, paragraph 4.7
and testable property 4, fixes their contract).  The shim stores a byte
string; a call receives a destination buffer and its length, returns the
byte length of the stored string, and when the buffer is non-empty fills
it with as many stored bytes as fit followed by a NUL terminator. -/
def nativeGetString (stored : List Nat) (buf : List Nat) : Nat × List Nat :=
  if buf.length = 0 then (stored.length, buf)
  else
    let n := min (buf.length - 1) stored.length
    (stored.length, stored.take n ++ 0 :: buf.drop (n + 1))

/-- Embedding of ETagRef::get_name of mdflib/src/etag.rs: call the shim
with a null buffer to learn the required length, return the empty string
when it is zero, otherwise allocate length-plus-one zero bytes, call again
to fill, and decode the C string lossily.  Every text getter of etag.rs
has this exact shape. -/
def etagRef_get_name (stored : List Nat) : List Nat :=
  let len := (nativeGetString stored []).1
  if len = 0 then []
  else
    let len := len + 1
    let buf := List.replicate len 0
    let filled := (nativeGetString stored buf).2
    toStringLossy (cstrBytes filled)

/-- Embedding of MdfHeaderRef::get_measurement_id of mdflib/src/header.rs,
the same two-call shape as ETagRef::get_name. -/
def mdfHeaderRef_get_measurement_id (stored : List Nat) : List Nat :=
  let len := (nativeGetString stored []).1
  if len = 0 then []
  else
    let len := len + 1
    let buf := List.replicate len 0
    let filled := (nativeGetString stored buf).2
    toStringLossy (cstrBytes filled)

/-- Embedding of MdfFileRef::get_name of mdflib/src/file.rs: a fixed
1024-byte zeroed buffer is passed to the shim once and decoded lossily;
the required length returned by the shim is ignored. -/
def mdfFileRef_get_name (stored : List Nat) : List Nat :=
  let buf := List.replicate 1024 0
  let filled := (nativeGetString stored buf).2
  toStringLossy (cstrBytes filled)

/-- Embedding of MdfFileRef::get_file_name of mdflib/src/file.rs (same
fixed-buffer shape as get_name). -/
def mdfFileRef_get_file_name (stored : List Nat) : List Nat :=
  let buf := List.replicate 1024 0
  let filled := (nativeGetString stored buf).2
  toStringLossy (cstrBytes filled)

/-- Embedding of MdfFileRef::get_version of mdflib/src/file.rs (same
fixed-buffer shape as get_name). -/
def mdfFileRef_get_version (stored : List Nat) : List Nat :=
  let buf := List.replicate 1024 0
  let filled := (nativeGetString stored buf).2
  toStringLossy (cstrBytes filled)

/-! ### Helper lemmas on the decoder and the shim model -/

theorem utf8DecodeOne_ascii (b : Nat) (rest : List Nat) (hb : b < 128) :
    utf8DecodeOne (b :: rest) = (b, rest) := by
  simp [utf8DecodeOne, hb]

theorem utf8LossyAux_ascii (fuel : Nat) :
    ∀ l : List Nat, (∀ b ∈ l, b < 128) → l.length ≤ fuel → utf8LossyAux fuel l = l := by
  induction fuel with
  | zero =>
    intro l h hf
    cases l with
    | nil => rfl
    | cons b rest => simp at hf
  | succ n ih =>
    intro l h hf
    cases l with
    | nil => rfl
    | cons b rest =>
      have hb : b < 128 := h b (List.mem_cons_self b rest)
      simp only [utf8LossyAux, utf8DecodeOne_ascii b rest hb]
      exact congrArg (b :: ·)
        (ih rest (fun x hx => h x (List.mem_cons_of_mem b hx))
          (Nat.le_of_succ_le_succ (by simpa using hf)))

/-- Lossy decoding is the identity on ASCII byte strings. -/
theorem toStringLossy_ascii (l : List Nat) (h : ∀ b ∈ l, b < 128) :
    toStringLossy l = l :=
  utf8LossyAux_ascii l.length l h le_rfl

theorem cstrBytes_append_zero (s t : List Nat) (h : ∀ b ∈ s, b ≠ 0) :
    cstrBytes (s ++ 0 :: t) = s := by
  induction s with
  | nil => simp [cstrBytes]
  | cons a s ih =>
    have ha : (a != 0) = true := by
      simpa using h a (List.mem_cons_self a s)
    simp only [cstrBytes, List.cons_append, List.takeWhile_cons, ha, if_true]
    exact congrArg (a :: ·) (ih fun b hb => h b (List.mem_cons_of_mem a hb))

theorem nativeGetString_length (stored : List Nat) (buf : List Nat) :
    (nativeGetString stored buf).1 = stored.length := by
  unfold nativeGetString
  split <;> rfl

theorem nativeGetString_exact (stored : List Nat) :
    (nativeGetString stored (List.replicate (stored.length + 1) 0)).2 = stored ++ [0] := by
  unfold nativeGetString
  rw [if_neg (by simp)]
  simp

theorem take_min_length (l : List Nat) (a : Nat) : l.take (min a l.length) = l.take a := by
  rcases Nat.le_total a l.length with h | h
  · rw [Nat.min_eq_left h]
  · rw [Nat.min_eq_right h, List.take_length, List.take_of_length_le h]

theorem nativeGetString_fixed_cstr (stored : List Nat) (h : ∀ b ∈ stored, b ≠ 0) :
    cstrBytes (nativeGetString stored (List.replicate 1024 0)).2 = stored.take 1023 := by
  have hmain : (nativeGetString stored (List.replicate 1024 0)).2
      = stored.take (min 1023 stored.length)
        ++ 0 :: (List.replicate 1024 (0:Nat)).drop (min 1023 stored.length + 1) := by
    unfold nativeGetString
    rw [if_neg (by rw [List.length_replicate]; decide)]
    dsimp only
    rw [List.length_replicate]
  rw [hmain, cstrBytes_append_zero _ _ (fun b hb => h b (List.mem_of_mem_take hb)),
    take_min_length]

theorem etag_get_name_fullValue (stored : List Nat) (h : ∀ b ∈ stored, b ≠ 0) :
    etagRef_get_name stored = toStringLossy stored := by
  simp only [etagRef_get_name, nativeGetString_length]
  by_cases h0 : stored.length = 0
  · rw [if_pos h0, List.length_eq_zero.mp h0]
    rfl
  · rw [if_neg h0, nativeGetString_exact, cstrBytes_append_zero stored [] h]

theorem header_get_measurement_id_fullValue (stored : List Nat) (h : ∀ b ∈ stored, b ≠ 0) :
    mdfHeaderRef_get_measurement_id stored = toStringLossy stored := by
  simp only [mdfHeaderRef_get_measurement_id, nativeGetString_length]
  by_cases h0 : stored.length = 0
  · rw [if_pos h0, List.length_eq_zero.mp h0]
    rfl
  · rw [if_neg h0, nativeGetString_exact, cstrBytes_append_zero stored [] h]

theorem file_get_name_take (stored : List Nat) (h : ∀ b ∈ stored, b ≠ 0) :
    mdfFileRef_get_name stored = toStringLossy (stored.take 1023) := by
  simp only [mdfFileRef_get_name]
  rw [nativeGetString_fixed_cstr stored h]

theorem file_get_file_name_take (stored : List Nat) (h : ∀ b ∈ stored, b ≠ 0) :
    mdfFileRef_get_file_name stored = toStringLossy (stored.take 1023) := by
  simp only [mdfFileRef_get_file_name]
  rw [nativeGetString_fixed_cstr stored h]

theorem file_get_version_take (stored : List Nat) (h : ∀ b ∈ stored, b ≠ 0) :
    mdfFileRef_get_version stored = toStringLossy (stored.take 1023) := by
  simp only [mdfFileRef_get_version]
  rw [nativeGetString_fixed_cstr stored h]

/-- C2.counterexample: MdfFileRef::get_name does not follow the two-call
convention: it fills a fixed 1024-byte buffer, so on a stored logical
name of 1024 ASCII bytes (the letter a repeated) it returns only the
first 1023 bytes, not the full lossily decoded value that every two-call
getter returns.  This refutes the quantification over every text-bearing
getter of every entity wrapper. -/
theorem mdfFileRef_get_name_truncates :
    mdfFileRef_get_name (List.replicate 1024 97) ≠
      toStringLossy (List.replicate 1024 97) := by
  have hnz : ∀ b ∈ List.replicate 1024 (97:Nat), b ≠ 0 := by
    intro b hb
    rw [List.eq_of_mem_replicate hb]
    decide
  have hlt : ∀ b ∈ List.replicate 1024 (97:Nat), b < 128 := by
    intro b hb
    rw [List.eq_of_mem_replicate hb]
    decide
  have htake : (List.replicate 1024 (97:Nat)).take 1023 = List.replicate 1023 97 := by
    rw [List.take_replicate]
    norm_num
  have hlt2 : ∀ b ∈ List.replicate 1023 (97:Nat), b < 128 := by
    intro b hb
    rw [List.eq_of_mem_replicate hb]
    decide
  rw [file_get_name_take _ hnz, htake, toStringLossy_ascii _ hlt2, toStringLossy_ascii _ hlt]
  intro heq
  have hlen := congrArg List.length heq
  rw [List.length_replicate, List.length_replicate] at hlen
  exact absurd hlen (by decide)

/-- C2 (amended): every text-bearing getter follows the two-call
convention (first call with a null buffer for the length, second call
with a length-plus-one buffer, lossy decoding, never an error), EXCEPT
the three string getters of MdfFileRef (get_name, get_file_name,
get_version), which pass a fixed 1024-byte buffer and so return only the
first 1023 bytes of a longer value, and CanBusObserverRef::get_name,
which uses a fixed 256-byte buffer.  Formally: on any stored C string,
the representative two-call getters (ETagRef::get_name,
MdfHeaderRef::get_measurement_id) return the full lossily decoded value,
while the MdfFileRef getters return the decoding of the first 1023
bytes. -/
theorem string_getter_protocol (stored : List Nat) (h : ∀ b ∈ stored, b ≠ 0) :
    etagRef_get_name stored = toStringLossy stored ∧
    mdfHeaderRef_get_measurement_id stored = toStringLossy stored ∧
    mdfFileRef_get_name stored = toStringLossy (stored.take 1023) ∧
    mdfFileRef_get_file_name stored = toStringLossy (stored.take 1023) ∧
    mdfFileRef_get_version stored = toStringLossy (stored.take 1023) :=
  ⟨etag_get_name_fullValue stored h, header_get_measurement_id_fullValue stored h,
    file_get_name_take stored h, file_get_file_name_take stored h,
    file_get_version_take stored h⟩

/-- Witness for string_getter_protocol at the concrete stored byte string
hi (bytes 104, 105). -/
theorem string_getter_protocol_witness :
    (∀ b ∈ [104, 105], b ≠ 0) ∧
      (etagRef_get_name [104, 105] = toStringLossy [104, 105] ∧
        mdfHeaderRef_get_measurement_id [104, 105] = toStringLossy [104, 105] ∧
        mdfFileRef_get_name [104, 105] = toStringLossy ([104, 105].take 1023) ∧
        mdfFileRef_get_file_name [104, 105] = toStringLossy ([104, 105].take 1023) ∧
        mdfFileRef_get_version [104, 105] = toStringLossy ([104, 105].take 1023)) :=
  ⟨by decide, string_getter_protocol [104, 105] (by decide)⟩

/-! ## Bounded collection getters (mdflib/src/file.rs, header.rs,
    metadata.rs) -/

/-- Modelled from the spec: the C export shim collection getters
(MdfFileGetDataGroups, MdfFileGetAttachments, IHeaderGetAttachments,
IHeaderGetFileHistories, IHeaderGetEvents, IHeaderGetDataGroups,
MetaDataGetProperties, MetaDataGetCommonProperties), whose source is
compiled at build time and is not part of src/.  The shim walks the
underlying container, writes the first min(count, max) element handles
into the caller-supplied array and returns the number written. -/
def nativeFillHandles (items : List Nat) (arr : List Nat) (maxCount : Nat) : Nat × List Nat :=
  let n := min items.length maxCount
  (n, items.take n ++ arr.drop n)

/-- Embedding of the mutable ETag wrapper of mdflib/src/etag.rs: the
native pointer plus the ownership flag that decides release on drop. -/
structure ETag where
  inner : Nat
  owned : Bool
deriving DecidableEq, Repr

/-- Embedding of ETag::from_raw of mdflib/src/etag.rs: wraps a pointer
obtained from a property collection, marked non-owning. -/
def ETag.from_raw (inner : Nat) : ETag := ⟨inner, false⟩

/-- Embedding of MdfFileRef::get_data_groups of mdflib/src/file.rs: a
vector of 1000 null pointers is passed to the shim, truncated to the
returned count and filtered of null pointers.  The argument is the list
of data-group handles held by the native file object. -/
def mdfFileRef_get_data_groups (dataGroups : List Nat) : List Nat :=
  let maxGroups := 1000
  let groups := List.replicate maxGroups 0
  let r := nativeFillHandles dataGroups groups maxGroups
  (r.2.take r.1).filter (fun p => p != 0)

/-- Embedding of MdfFileRef::get_attachments of mdflib/src/file.rs (same
shape as get_data_groups, cap 1000). -/
def mdfFileRef_get_attachments (attachments : List Nat) : List Nat :=
  let maxAttachments := 1000
  let arr := List.replicate maxAttachments 0
  let r := nativeFillHandles attachments arr maxAttachments
  (r.2.take r.1).filter (fun p => p != 0)

/-- Embedding of MdfHeaderRef::get_attachments of mdflib/src/header.rs
(cap 1000). -/
def mdfHeaderRef_get_attachments (attachments : List Nat) : List Nat :=
  let maxAttachments := 1000
  let arr := List.replicate maxAttachments 0
  let r := nativeFillHandles attachments arr maxAttachments
  (r.2.take r.1).filter (fun p => p != 0)

/-- Embedding of MdfHeaderRef::get_file_histories of mdflib/src/header.rs
(cap 1000). -/
def mdfHeaderRef_get_file_histories (histories : List Nat) : List Nat :=
  let maxHistories := 1000
  let arr := List.replicate maxHistories 0
  let r := nativeFillHandles histories arr maxHistories
  (r.2.take r.1).filter (fun p => p != 0)

/-- Embedding of MdfHeaderRef::get_events of mdflib/src/header.rs
(cap 1000). -/
def mdfHeaderRef_get_events (events : List Nat) : List Nat :=
  let maxEvents := 1000
  let arr := List.replicate maxEvents 0
  let r := nativeFillHandles events arr maxEvents
  (r.2.take r.1).filter (fun p => p != 0)

/-- Embedding of MdfHeader::get_data_groups of mdflib/src/header.rs
(cap 1000). -/
def mdfHeader_get_data_groups (dataGroups : List Nat) : List Nat :=
  let maxDataGroups := 1000
  let arr := List.replicate maxDataGroups 0
  let r := nativeFillHandles dataGroups arr maxDataGroups
  (r.2.take r.1).filter (fun p => p != 0)

/-- Embedding of MetaDataRef::get_properties of mdflib/src/metadata.rs:
cap 1000, each surviving pointer wrapped through ETag::from_raw. -/
def metaDataRef_get_properties (properties : List Nat) : List ETag :=
  let maxProperties := 1000
  let arr := List.replicate maxProperties 0
  let r := nativeFillHandles properties arr maxProperties
  ((r.2.take r.1).filter (fun p => p != 0)).map ETag.from_raw

/-- Embedding of MetaDataRef::get_common_properties of
mdflib/src/metadata.rs (same shape as get_properties). -/
def metaDataRef_get_common_properties (commonProperties : List Nat) : List ETag :=
  let maxProperties := 1000
  let arr := List.replicate maxProperties 0
  let r := nativeFillHandles commonProperties arr maxProperties
  ((r.2.take r.1).filter (fun p => p != 0)).map ETag.from_raw

theorem take_append_exact (l t : List Nat) (n : Nat) (h : l.length = n) :
    (l ++ t).take n = l := by
  subst h
  exact List.take_left l t

theorem boundedFilter_length (items : List Nat) (h : ∀ p ∈ items, p ≠ 0) :
    (((nativeFillHandles items (List.replicate 1000 0) 1000).2.take
        (nativeFillHandles items (List.replicate 1000 0) 1000).1).filter
          (fun p => p != 0)).length
      = min items.length 1000 := by
  unfold nativeFillHandles
  dsimp only
  have hnle : min items.length 1000 ≤ items.length := Nat.min_le_left _ _
  have hlen : (items.take (min items.length 1000)).length = min items.length 1000 := by
    rw [List.length_take]
    omega
  have htake : (items.take (min items.length 1000)
        ++ (List.replicate 1000 (0:Nat)).drop (min items.length 1000)).take
          (min items.length 1000) = items.take (min items.length 1000) :=
    take_append_exact _ _ _ hlen
  rw [htake]
  have hfilter : (items.take (min items.length 1000)).filter (fun p => p != 0)
      = items.take (min items.length 1000) := by
    apply List.filter_eq_self.mpr
    intro a ha
    simpa using h a (List.mem_of_mem_take ha)
  rw [hfilter, hlen]

/-- C3: for every file/header/metadata state (lists of non-null element
handles of the native containers), each batch collection getter of
file.rs, header.rs and metadata.rs returns exactly min(actual_count,
1000) entries, even when the underlying container holds more. -/
theorem bounded_collection_cap
    (fileGroups fileAtts headerAtts histories events headerGroups props commonProps : List Nat)
    (h1 : ∀ p ∈ fileGroups, p ≠ 0) (h2 : ∀ p ∈ fileAtts, p ≠ 0)
    (h3 : ∀ p ∈ headerAtts, p ≠ 0) (h4 : ∀ p ∈ histories, p ≠ 0)
    (h5 : ∀ p ∈ events, p ≠ 0) (h6 : ∀ p ∈ headerGroups, p ≠ 0)
    (h7 : ∀ p ∈ props, p ≠ 0) (h8 : ∀ p ∈ commonProps, p ≠ 0) :
    (mdfFileRef_get_data_groups fileGroups).length = min fileGroups.length 1000 ∧
    (mdfFileRef_get_attachments fileAtts).length = min fileAtts.length 1000 ∧
    (mdfHeaderRef_get_attachments headerAtts).length = min headerAtts.length 1000 ∧
    (mdfHeaderRef_get_file_histories histories).length = min histories.length 1000 ∧
    (mdfHeaderRef_get_events events).length = min events.length 1000 ∧
    (mdfHeader_get_data_groups headerGroups).length = min headerGroups.length 1000 ∧
    (metaDataRef_get_properties props).length = min props.length 1000 ∧
    (metaDataRef_get_common_properties commonProps).length = min commonProps.length 1000 := by
  refine ⟨?_, ?_, ?_, ?_, ?_, ?_, ?_, ?_⟩
  · exact boundedFilter_length _ h1
  · exact boundedFilter_length _ h2
  · exact boundedFilter_length _ h3
  · exact boundedFilter_length _ h4
  · exact boundedFilter_length _ h5
  · exact boundedFilter_length _ h6
  · unfold metaDataRef_get_properties
    rw [List.length_map]
    exact boundedFilter_length _ h7
  · unfold metaDataRef_get_common_properties
    rw [List.length_map]
    exact boundedFilter_length _ h8

/-- Witness for bounded_collection_cap: a file whose native container
holds 1500 data groups (the getter returns 1000) and singleton containers
elsewhere. -/
theorem bounded_collection_cap_witness :
    (∀ p ∈ List.replicate 1500 (5:Nat), p ≠ 0) ∧
    ((mdfFileRef_get_data_groups (List.replicate 1500 5)).length
        = min (List.replicate 1500 (5:Nat)).length 1000 ∧
      (mdfFileRef_get_attachments [7]).length = min [7].length 1000 ∧
      (mdfHeaderRef_get_attachments [7]).length = min [7].length 1000 ∧
      (mdfHeaderRef_get_file_histories [7]).length = min [7].length 1000 ∧
      (mdfHeaderRef_get_events [7]).length = min [7].length 1000 ∧
      (mdfHeader_get_data_groups [7]).length = min [7].length 1000 ∧
      (metaDataRef_get_properties [7]).length = min [7].length 1000 ∧
      (metaDataRef_get_common_properties [7]).length = min [7].length 1000) :=
  ⟨fun p hp => by rw [List.eq_of_mem_replicate hp]; decide,
    bounded_collection_cap (List.replicate 1500 5) [7] [7] [7] [7] [7] [7] [7]
      (fun p hp => by rw [List.eq_of_mem_replicate hp]; decide)
      (by decide) (by decide) (by decide) (by decide) (by decide)
      (by decide) (by decide)⟩

/-! ## Logging bridge (mdflib/src/log.rs) -/

/-- Embedding of the process-wide logging-bridge state of
mdflib/src/log.rs: the two mutex-guarded installed-callback slots
(callbacks are opaque identifiers) together with whether the native
MdfSetLogFunction1/MdfSetLogFunction2 registration of the C wrapper
function is active. -/
structure LogState where
  logCallback1 : Option Nat
  logCallback2 : Option Nat
  engineFn1 : Bool
  engineFn2 : Bool
deriving DecidableEq, Repr

/-- Embedding of set_log_callback_1 of mdflib/src/log.rs: installing over
an occupied slot fails with CallbackError and changes nothing; installing
into an empty slot stores the callback and registers the native wrapper;
passing none clears the slot and the native registration, always
succeeding. -/
def set_log_callback_1 (callback : Option Nat) (st : LogState) :
    Except MdfError Unit × LogState :=
  match callback with
  | some cb =>
    if st.logCallback1.isSome then
      (.error (.CallbackError "Failed to set log callback, already set"), st)
    else
      (.ok (), { st with logCallback1 := some cb, engineFn1 := true })
  | none => (.ok (), { st with logCallback1 := none, engineFn1 := false })

/-- Embedding of set_log_callback_2 of mdflib/src/log.rs (shape 2,
severity + function + text), same logic on the second slot. -/
def set_log_callback_2 (callback : Option Nat) (st : LogState) :
    Except MdfError Unit × LogState :=
  match callback with
  | some cb =>
    if st.logCallback2.isSome then
      (.error (.CallbackError "Failed to set log callback, already set"), st)
    else
      (.ok (), { st with logCallback2 := some cb, engineFn2 := true })
  | none => (.ok (), { st with logCallback2 := none, engineFn2 := false })

/-- C4: for each callback shape independently: installing while a
callback of that shape is installed returns callback-registration-failure
and leaves the whole state unchanged; installing into an empty slot
succeeds and stores the callback; passing none always succeeds and clears
the slot; and each operation leaves the other shape's slot untouched. -/
theorem log_callback_exclusivity (st : LogState) (cb : Nat) :
    (∀ c0, st.logCallback1 = some c0 →
      set_log_callback_1 (some cb) st
        = (.error (.CallbackError "Failed to set log callback, already set"), st)) ∧
    (st.logCallback1 = none →
      set_log_callback_1 (some cb) st
        = (.ok (), { st with logCallback1 := some cb, engineFn1 := true })) ∧
    (set_log_callback_1 none st
        = (.ok (), { st with logCallback1 := none, engineFn1 := false })) ∧
    ((set_log_callback_1 (some cb) st).2.logCallback2 = st.logCallback2) ∧
    (∀ c0, st.logCallback2 = some c0 →
      set_log_callback_2 (some cb) st
        = (.error (.CallbackError "Failed to set log callback, already set"), st)) ∧
    (st.logCallback2 = none →
      set_log_callback_2 (some cb) st
        = (.ok (), { st with logCallback2 := some cb, engineFn2 := true })) ∧
    (set_log_callback_2 none st
        = (.ok (), { st with logCallback2 := none, engineFn2 := false })) ∧
    ((set_log_callback_2 (some cb) st).2.logCallback1 = st.logCallback1) := by
  refine ⟨?_, ?_, rfl, ?_, ?_, ?_, rfl, ?_⟩
  · intro c0 hc0
    simp [set_log_callback_1, hc0]
  · intro hnone
    simp [set_log_callback_1, hnone]
  · by_cases h1 : st.logCallback1.isSome <;> simp [set_log_callback_1, h1]
  · intro c0 hc0
    simp [set_log_callback_2, hc0]
  · intro hnone
    simp [set_log_callback_2, hnone]
  · by_cases h2 : st.logCallback2.isSome <;> simp [set_log_callback_2, h2]

/-- Witness for log_callback_exclusivity: shape 1 already holds callback
3 (double install fails, state unchanged), shape 2 is empty (install
succeeds). -/
theorem log_callback_exclusivity_witness :
    set_log_callback_1 (some 4) ⟨some 3, none, true, false⟩
      = (.error (.CallbackError "Failed to set log callback, already set"),
          ⟨some 3, none, true, false⟩) ∧
    set_log_callback_2 (some 4) ⟨some 3, none, true, false⟩
      = (.ok (), ⟨some 3, some 4, true, true⟩) ∧
    set_log_callback_1 none ⟨some 3, none, true, false⟩
      = (.ok (), ⟨none, none, false, false⟩) :=
  ⟨(log_callback_exclusivity ⟨some 3, none, true, false⟩ 4).1 3 rfl,
    (log_callback_exclusivity ⟨some 3, none, true, false⟩ 4).2.2.2.2.2.1 rfl,
    (log_callback_exclusivity ⟨some 3, none, true, false⟩ 4).2.2.1⟩

/-! ## Reader staged phases (mdflib/src/reader.rs) -/

/-- Embedding of the safe MdfReader wrapper: the non-null native reader
handle. -/
structure MdfReader where
  inner : Nat
deriving DecidableEq, Repr

/-- Embedding of CString::new of the Rust standard library: fails (with a
NulError) exactly when the text contains an interior NUL byte. -/
def cstring_new (s : String) : Option String :=
  if s.toList.contains (Char.ofNat 0) then none else some s

/-- Embedding of MdfReader::new of mdflib/src/reader.rs: the question
mark on CString::new maps a NulError into MdfError::StringConversion;
MdfReaderInit is represented by the oracle argument initResult (the
returned handle, 0 for null); a null handle fails with FileOpen carrying
the attempted path. -/
def MdfReader.new (path : String) (initResult : Nat) : Except MdfError MdfReader :=
  match cstring_new path with
  | none => .error .StringConversion
  | some _ =>
    if initResult = 0 then .error (.FileOpen path)
    else .ok ⟨initResult⟩

/-- Embedding of MdfReader::open of mdflib/src/reader.rs (named openFile
here because open is a Lean keyword) over the boolean returned by the
native MdfReaderOpen call. -/
def MdfReader.openFile (engineOk : Bool) : Except MdfError Unit :=
  if engineOk then .ok () else .error (.FileOpen "Failed to open file")

/-- Embedding of MdfReader::read_header of mdflib/src/reader.rs. -/
def MdfReader.read_header (engineOk : Bool) : Except MdfError Unit :=
  if engineOk then .ok () else .error .HeaderRead

/-- Embedding of MdfReader::read_measurement_info of
mdflib/src/reader.rs. -/
def MdfReader.read_measurement_info (engineOk : Bool) : Except MdfError Unit :=
  if engineOk then .ok () else .error .MeasurementInfo

/-- Embedding of MdfReader::read_everything_but_data of
mdflib/src/reader.rs. -/
def MdfReader.read_everything_but_data (engineOk : Bool) : Except MdfError Unit :=
  if engineOk then .ok () else .error .DataRead

/-- Embedding of MdfReader::read_data of mdflib/src/reader.rs. -/
def MdfReader.read_data (engineOk : Bool) : Except MdfError Unit :=
  if engineOk then .ok () else .error .DataRead

/-- C5: each Reader phase maps an engine-reported failure to exactly its
documented error kind and returns Ok otherwise: construction fails with
FileOpen carrying the attempted path iff the native allocation returns
null (for a NUL-free path), open with FileOpen, read_header with
HeaderRead, read_measurement_info with MeasurementInfo, and
read_everything_but_data and read_data with DataRead, each exactly when
the native call returns false. -/
theorem reader_phase_errors (path : String) (handle : Nat)
    (hpath : cstring_new path = some path) (hh : handle ≠ 0) :
    MdfReader.new path 0 = .error (.FileOpen path) ∧
    MdfReader.new path handle = .ok ⟨handle⟩ ∧
    (∀ b, MdfReader.openFile b = .ok () ↔ b = true) ∧
    MdfReader.openFile false = .error (.FileOpen "Failed to open file") ∧
    (∀ b, MdfReader.read_header b = .ok () ↔ b = true) ∧
    MdfReader.read_header false = .error .HeaderRead ∧
    (∀ b, MdfReader.read_measurement_info b = .ok () ↔ b = true) ∧
    MdfReader.read_measurement_info false = .error .MeasurementInfo ∧
    (∀ b, MdfReader.read_everything_but_data b = .ok () ↔ b = true) ∧
    MdfReader.read_everything_but_data false = .error .DataRead ∧
    (∀ b, MdfReader.read_data b = .ok () ↔ b = true) ∧
    MdfReader.read_data false = .error .DataRead := by
  refine ⟨?_, ?_, ?_, rfl, ?_, rfl, ?_, rfl, ?_, rfl, ?_, rfl⟩
  · simp [MdfReader.new, hpath]
  · simp [MdfReader.new, hpath, hh]
  all_goals intro b
  all_goals cases b <;>
    simp [MdfReader.openFile, MdfReader.read_header, MdfReader.read_measurement_info,
      MdfReader.read_everything_but_data, MdfReader.read_data]

/-- Witness for reader_phase_errors at the path of the reader doc
example and native handle 42. -/
theorem reader_phase_errors_witness :
    (cstring_new "tests/test.mdf" = some "tests/test.mdf" ∧ (42:Nat) ≠ 0) ∧
    (MdfReader.new "tests/test.mdf" 0 = .error (.FileOpen "tests/test.mdf") ∧
      MdfReader.new "tests/test.mdf" 42 = .ok ⟨42⟩ ∧
      MdfReader.openFile false = .error (.FileOpen "Failed to open file") ∧
      MdfReader.read_header false = .error .HeaderRead ∧
      MdfReader.read_everything_but_data true = .ok ()) :=
  ⟨⟨by decide, by decide⟩,
    by
      have h := reader_phase_errors "tests/test.mdf" 42 (by decide) (by decide)
      exact ⟨h.1, h.2.1, h.2.2.2.1, h.2.2.2.2.2.1, (h.2.2.2.2.2.2.2.2.1 true).mpr rfl⟩⟩

/-! ## Observers (mdflib/src/channelobserver.rs, canbusobserver.rs) -/

/-- Embedding of a channel observer of mdflib/src/channelobserver.rs: the
sample count the native observer reports and the two native per-sample
calls (ChannelObserverGetChannelValue, ChannelObserverGetEngValue), each
returning a validity flag together with the f64 written through the out
pointer; the value type is abstract since the wrapper never inspects
it. -/
structure ChannelObserverRef (V : Type) where
  nofSamples : Nat
  channelValueCall : Nat → Bool × V
  engValueCall : Nat → Bool × V

/-- Embedding of ChannelObserverRef::get_nof_samples. -/
def ChannelObserverRef.get_nof_samples {V} (o : ChannelObserverRef V) : Nat :=
  o.nofSamples

/-- Embedding of ChannelObserverRef::get_channel_value: Some(value) when
the native call reports the sample valid, None otherwise — the value
written through the out pointer is discarded on an invalid sample. -/
def ChannelObserverRef.get_channel_value {V} (o : ChannelObserverRef V)
    (sample : Nat) : Option V :=
  let r := o.channelValueCall sample
  if r.1 then some r.2 else none

/-- Embedding of ChannelObserverRef::get_eng_value (same shape over the
engineering-value native call). -/
def ChannelObserverRef.get_eng_value {V} (o : ChannelObserverRef V)
    (sample : Nat) : Option V :=
  let r := o.engValueCall sample
  if r.1 then some r.2 else none

/-- Embedding of ChannelObserverRef::get_all_channel_values: the loop
pushing get_channel_value(sample) for sample in 0..nof_samples. -/
def ChannelObserverRef.get_all_channel_values {V} (o : ChannelObserverRef V) :
    List (Option V) :=
  (List.range o.get_nof_samples).map o.get_channel_value

/-- Embedding of ChannelObserverRef::get_all_eng_values. -/
def ChannelObserverRef.get_all_eng_values {V} (o : ChannelObserverRef V) :
    List (Option V) :=
  (List.range o.get_nof_samples).map o.get_eng_value

/-- Embedding of a CAN bus observer of mdflib/src/canbusobserver.rs: the
sample count and the native CanBusObserverGetCanMessage call returning a
CanMessage pointer (0 for null). -/
structure CanBusObserverRef where
  nofSamples : Nat
  canMessageCall : Nat → Nat

/-- Embedding of CanBusObserverRef::get_nof_samples. -/
def CanBusObserverRef.get_nof_samples (o : CanBusObserverRef) : Nat :=
  o.nofSamples

/-- Embedding of CanBusObserverRef::get_can_message: None exactly when
the native call returns a null pointer, otherwise the CanMessageRef
wrapper of the returned pointer. -/
def CanBusObserverRef.get_can_message (o : CanBusObserverRef) (sample : Nat) :
    Option Nat :=
  let p := o.canMessageCall sample
  if p = 0 then none else some p

/-- Embedding of CanBusObserverRef::get_all_can_messages: the loop
pushing get_can_message(sample) for sample in 0..nof_samples. -/
def CanBusObserverRef.get_all_can_messages (o : CanBusObserverRef) :
    List (Option Nat) :=
  (List.range o.get_nof_samples).map o.get_can_message

/-- C6: get_channel_value and get_eng_value return None whenever the
engine marks the sample invalid, never a substitute value; and
get_can_message returns None (the functions are total, so no panic is
possible) on any sample index for which the engine returns no message —
in particular every out-of-range index. -/
theorem observer_absence {V : Type} (o : ChannelObserverRef V)
    (c : CanBusObserverRef) (i k : Nat)
    (hinv : (o.channelValueCall i).1 = false)
    (hinv2 : (o.engValueCall i).1 = false)
    (hnull : c.canMessageCall k = 0) :
    o.get_channel_value i = none ∧
    o.get_eng_value i = none ∧
    c.get_can_message k = none := by
  refine ⟨?_, ?_, ?_⟩
  · simp [ChannelObserverRef.get_channel_value, hinv]
  · simp [ChannelObserverRef.get_eng_value, hinv2]
  · simp [CanBusObserverRef.get_can_message, hnull]

/-- Witness for observer_absence: an observer whose engine marks every
sample invalid and a CAN observer of 1 sample queried at the
out-of-range index 5, where the engine returns the null pointer. -/
theorem observer_absence_witness :
    ((((⟨1, fun _ => (false, 0), fun _ => (false, 0)⟩ :
          ChannelObserverRef Nat).channelValueCall 0).1 = false) ∧
      ((⟨1, fun s => if s < 1 then s + 1 else 0⟩ :
          CanBusObserverRef).canMessageCall 5 = 0)) ∧
    ((⟨1, fun _ => (false, 0), fun _ => (false, 0)⟩ :
        ChannelObserverRef Nat).get_channel_value 0 = none ∧
      (⟨1, fun _ => (false, 0), fun _ => (false, 0)⟩ :
        ChannelObserverRef Nat).get_eng_value 0 = none ∧
      (⟨1, fun s => if s < 1 then s + 1 else 0⟩ :
        CanBusObserverRef).get_can_message 5 = none) :=
  ⟨⟨rfl, rfl⟩,
    observer_absence (⟨1, fun _ => (false, 0), fun _ => (false, 0)⟩ : ChannelObserverRef Nat)
      (⟨1, fun s => if s < 1 then s + 1 else 0⟩ : CanBusObserverRef) 0 5 rfl rfl rfl⟩

/-- C9: the batch accessors agree pointwise with the per-sample
accessors: each all-values vector has length get_nof_samples and its
element at every in-range index i equals the per-sample accessor at
i. -/
theorem batch_accessors_pointwise {V : Type} (o : ChannelObserverRef V)
    (c : CanBusObserverRef) (i j : Nat)
    (hi : i < o.get_nof_samples) (hj : j < c.get_nof_samples) :
    o.get_all_channel_values.length = o.get_nof_samples ∧
    o.get_all_eng_values.length = o.get_nof_samples ∧
    c.get_all_can_messages.length = c.get_nof_samples ∧
    o.get_all_channel_values[i]? = some (o.get_channel_value i) ∧
    o.get_all_eng_values[i]? = some (o.get_eng_value i) ∧
    c.get_all_can_messages[j]? = some (c.get_can_message j) := by
  refine ⟨?_, ?_, ?_, ?_, ?_, ?_⟩
  · simp [ChannelObserverRef.get_all_channel_values]
  · simp [ChannelObserverRef.get_all_eng_values]
  · simp [CanBusObserverRef.get_all_can_messages]
  · simp [ChannelObserverRef.get_all_channel_values, List.getElem?_map,
      List.getElem?_range, hi]
  · simp [ChannelObserverRef.get_all_eng_values, List.getElem?_map,
      List.getElem?_range, hi]
  · simp [CanBusObserverRef.get_all_can_messages, List.getElem?_map,
      List.getElem?_range, hj]

/-- Witness for batch_accessors_pointwise at a two-sample observer whose
second raw sample is invalid and a two-sample CAN observer. -/
theorem batch_accessors_pointwise_witness :
    ((1 < (⟨2, fun s => (s = 0, s), fun s => (true, s * 10)⟩ :
        ChannelObserverRef Nat).get_nof_samples) ∧
      (1 < (⟨2, fun s => s + 6⟩ : CanBusObserverRef).get_nof_samples)) ∧
    ((⟨2, fun s => (s = 0, s), fun s => (true, s * 10)⟩ :
        ChannelObserverRef Nat).get_all_channel_values[1]?
      = some ((⟨2, fun s => (s = 0, s), fun s => (true, s * 10)⟩ :
        ChannelObserverRef Nat).get_channel_value 1)) ∧
    ((⟨2, fun s => s + 6⟩ : CanBusObserverRef).get_all_can_messages[1]?
      = some ((⟨2, fun s => s + 6⟩ : CanBusObserverRef).get_can_message 1)) :=
  ⟨⟨by decide, by decide⟩,
    (batch_accessors_pointwise (⟨2, fun s => (s = 0, s), fun s => (true, s * 10)⟩ :
        ChannelObserverRef Nat)
      (⟨2, fun s => s + 6⟩ : CanBusObserverRef) 1 1 (by decide) (by decide)).2.2.2.1,
    (batch_accessors_pointwise (⟨2, fun s => (s = 0, s), fun s => (true, s * 10)⟩ :
        ChannelObserverRef Nat)
      (⟨2, fun s => s + 6⟩ : CanBusObserverRef) 1 1 (by decide) (by decide)).2.2.2.2.2⟩

/-! ## ETag construction, ownership and drop (mdflib/src/etag.rs) -/

/-- Embedding of ETag::new of mdflib/src/etag.rs: ETagInit is represented
by the oracle argument (the returned pointer, 0 for null); a null
allocation fails with NullPointer, otherwise the wrapper is owning. -/
def ETag.new (allocResult : Nat) : Except MdfError ETag :=
  if allocResult = 0 then .error .NullPointer
  else .ok ⟨allocResult, true⟩

/-- Embedding of the Drop implementation for ETag of mdflib/src/etag.rs:
whether the native ETagUnInit release is invoked by the (single) drop
run, namely exactly when the handle is owned and non-null. -/
def ETag.drop (e : ETag) : Bool :=
  e.owned && e.inner != 0

/-- C7: ETag::new returns NullPointer exactly when the native allocator
returns null and otherwise an owning ETag whose drop triggers release;
an ETag obtained via from_raw — in particular every element of a
MetaData property collection — is non-owning and its drop never triggers
release. -/
theorem etag_ownership (p q : Nat) (props : List Nat) (hp : p ≠ 0) :
    ETag.new 0 = .error .NullPointer ∧
    ETag.new p = .ok ⟨p, true⟩ ∧
    ETag.drop ⟨p, true⟩ = true ∧
    ETag.drop (ETag.from_raw q) = false ∧
    (∀ t ∈ metaDataRef_get_properties props, t.owned = false ∧ ETag.drop t = false) := by
  refine ⟨rfl, ?_, ?_, rfl, ?_⟩
  · simp [ETag.new, hp]
  · simp [ETag.drop, hp]
  · intro t ht
    simp only [metaDataRef_get_properties, List.mem_map] at ht
    obtain ⟨a, _, rfl⟩ := ht
    exact ⟨rfl, rfl⟩

/-- Witness for etag_ownership at allocation result 7, raw pointer 9 and
a singleton property collection. -/
theorem etag_ownership_witness :
    ((7:Nat) ≠ 0) ∧
    (ETag.new 0 = .error .NullPointer ∧
      ETag.new 7 = .ok ⟨7, true⟩ ∧
      ETag.drop ⟨7, true⟩ = true ∧
      ETag.drop (ETag.from_raw 9) = false ∧
      (∀ t ∈ metaDataRef_get_properties [11], t.owned = false ∧ ETag.drop t = false)) :=
  ⟨by decide, etag_ownership 7 9 [11] (by decide)⟩

/-! ## Writer measurement persistence (mdflib/src/writer.rs) -/

/-- Modelled from the spec: the native writer measurement engine.  The
persistence decision lives in the external engine (not under src/); the
spec (4.17 and testable property 3) fixes it: start_measurement records
the absolute start time in nanoseconds, which must be greater than zero
or subsequently saved samples are silently discarded.  Rows are pairs of
channel-group handle and timestamp. -/
structure WriterEngine where
  startTime : Nat
  samples : List (Nat × Nat)
deriving DecidableEq, Repr

/-- Modelled from the spec: the native MdfWriterStartMeasurement records
the start time. -/
def engineStartMeasurement (st : WriterEngine) (startTime : Nat) : WriterEngine :=
  { st with startTime := startTime }

/-- Modelled from the spec: the native MdfWriterSaveSample and
MdfWriterSaveCanMessage append the row exactly when the recorded start
time is greater than zero, silently discarding it otherwise. -/
def engineSaveRow (st : WriterEngine) (group : Nat) (time : Nat) : WriterEngine :=
  if st.startTime > 0 then { st with samples := st.samples ++ [(group, time)] }
  else st

/-- Embedding of MdfWriter::start_measurement of mdflib/src/writer.rs: a
direct passthrough to the native call. -/
def MdfWriter.start_measurement (st : WriterEngine) (startTime : Nat) : WriterEngine :=
  engineStartMeasurement st startTime

/-- Embedding of MdfWriter::save_sample of mdflib/src/writer.rs
(passthrough to the native call). -/
def MdfWriter.save_sample (st : WriterEngine) (group : Nat) (time : Nat) : WriterEngine :=
  engineSaveRow st group time

/-- Embedding of MdfWriter::save_can_message of mdflib/src/writer.rs
(passthrough; the message handle does not influence persistence). -/
def MdfWriter.save_can_message (st : WriterEngine) (group : Nat) (time : Nat)
    (_message : Nat) : WriterEngine :=
  engineSaveRow st group time

/-- One save call of a measurement session: either save_sample or
save_can_message on a channel group at a timestamp. -/
inductive SaveCall where
  | sample (group : Nat) (time : Nat)
  | canMessage (group : Nat) (time : Nat) (message : Nat)
deriving DecidableEq, Repr

/-- Timestamp argument of a save call. -/
def SaveCall.time : SaveCall → Nat
  | .sample _ t => t
  | .canMessage _ t _ => t

/-- Execution of a sequence of save calls against the writer. -/
def runSaves (st : WriterEngine) : List SaveCall → WriterEngine
  | [] => st
  | .sample g t :: rest => runSaves (MdfWriter.save_sample st g t) rest
  | .canMessage g t m :: rest => runSaves (MdfWriter.save_can_message st g t m) rest

theorem runSaves_zero (calls : List SaveCall) :
    ∀ st : WriterEngine, st.startTime = 0 → (runSaves st calls).samples = st.samples := by
  induction calls with
  | nil => intro st h; rfl
  | cons c rest ih =>
    intro st h
    cases c with
    | sample g t =>
      have hrow : MdfWriter.save_sample st g t = st := by
        simp [MdfWriter.save_sample, engineSaveRow, h]
      rw [runSaves, hrow]
      exact ih st h
    | canMessage g t m =>
      have hrow : MdfWriter.save_can_message st g t m = st := by
        simp [MdfWriter.save_can_message, engineSaveRow, h]
      rw [runSaves, hrow]
      exact ih st h

theorem runSaves_pos (calls : List SaveCall) :
    ∀ st : WriterEngine, 0 < st.startTime →
      (runSaves st calls).samples.length = st.samples.length + calls.length := by
  induction calls with
  | nil => intro st h; rfl
  | cons c rest ih =>
    intro st h
    cases c with
    | sample g t =>
      have hrow : MdfWriter.save_sample st g t
          = { st with samples := st.samples ++ [(g, t)] } := by
        simp [MdfWriter.save_sample, engineSaveRow, h]
      rw [runSaves, hrow, ih _ (by simpa using h)]
      simp
      omega
    | canMessage g t m =>
      have hrow : MdfWriter.save_can_message st g t m
          = { st with samples := st.samples ++ [(g, t)] } := by
        simp [MdfWriter.save_can_message, engineSaveRow, h]
      rw [runSaves, hrow, ih _ (by simpa using h)]
      simp
      omega

/-- C8: after start_measurement with start time 0, the save calls persist
nothing (the sample list is unchanged, so a fresh writer persists zero
samples); after start_measurement with any start time greater than zero
followed by save calls with strictly ascending timestamps, every one of
them is persisted. -/
theorem writer_start_time_boundary (st0 : WriterEngine) (calls : List SaveCall)
    (t : Nat) (ht : 0 < t)
    (_hasc : (calls.map SaveCall.time).Chain' (· < ·)) :
    (runSaves (MdfWriter.start_measurement st0 0) calls).samples = st0.samples ∧
    (runSaves (MdfWriter.start_measurement st0 t) calls).samples.length
      = st0.samples.length + calls.length := by
  constructor
  · exact runSaves_zero calls _ rfl
  · exact runSaves_pos calls _ (by simpa [MdfWriter.start_measurement,
      engineStartMeasurement] using ht)

/-- Witness for writer_start_time_boundary: a fresh writer, two save
calls with ascending timestamps, start time 50. -/
theorem writer_start_time_boundary_witness :
    ((0:Nat) < 50 ∧
      (([SaveCall.sample 1 100, SaveCall.canMessage 1 200 9].map
        SaveCall.time).Chain' (· < ·))) ∧
    ((runSaves (MdfWriter.start_measurement ⟨0, []⟩ 0)
        [SaveCall.sample 1 100, SaveCall.canMessage 1 200 9]).samples = [] ∧
      (runSaves (MdfWriter.start_measurement ⟨0, []⟩ 50)
        [SaveCall.sample 1 100, SaveCall.canMessage 1 200 9]).samples.length = 0 + 2) :=
  ⟨⟨by decide, by simp [List.chain'_cons, SaveCall.time]⟩,
    writer_start_time_boundary ⟨0, []⟩ [SaveCall.sample 1 100, SaveCall.canMessage 1 200 9]
      50 (by decide) (by simp [List.chain'_cons, SaveCall.time])⟩

/-! ## Unchecked CString conversions (mdflib/src/datagroup.rs) -/

/-- Embedding of DataGroup::set_description of mdflib/src/datagroup.rs:
the source calls CString::new(description).unwrap() — None models the
unwrap panic on an embedded NUL byte; on success the native setter is
called and the function returns unit. -/
def dataGroup_set_description (description : String) : Option Unit :=
  (cstring_new description).map (fun _ => ())

/-- Embedding of DataGroupRef::get_channel_group of
mdflib/src/datagroup.rs: CString::new(name).unwrap() (None models the
panic), then the native lookup by name (the oracle argument, returning
the channel-group pointer, 0 for null), wrapped in Some when
non-null. -/
def dataGroupRef_get_channel_group (lookup : String → Nat) (name : String) :
    Option (Option Nat) :=
  (cstring_new name).map (fun _ =>
    let cg := lookup name
    if cg = 0 then none else some cg)

/-- Embedding of ETag::set_name of mdflib/src/etag.rs: the question mark
on CString::new surfaces the embedded-NUL failure as a StringConversion
error instead of panicking. -/
def etag_set_name (name : String) : Except MdfError Unit :=
  match cstring_new name with
  | none => .error .StringConversion
  | some _ => .ok ()

/-- C10: on the concrete string of the bytes 65, 0, 66 (an embedded NUL),
DataGroup::set_description and DataGroupRef::get_channel_group reach the
unwrap of the failed CString conversion and panic (modelled as None),
while the validated ETag::set_name returns the embedded-nul conversion
error as a Result. -/
theorem embedded_nul_panics :
    dataGroup_set_description (String.mk [Char.ofNat 65, Char.ofNat 0, Char.ofNat 66])
      = none ∧
    dataGroupRef_get_channel_group (fun _ => 0)
      (String.mk [Char.ofNat 65, Char.ofNat 0, Char.ofNat 66]) = none ∧
    etag_set_name (String.mk [Char.ofNat 65, Char.ofNat 0, Char.ofNat 66])
      = .error .StringConversion := by
  refine ⟨rfl, rfl, rfl⟩
